import Mathlib

/-!
Verification development for the airflow backup/restore scripts
(airflow_backup.py and airflow_restore.py).

The restore script's per-kind loops all follow one pattern: query the
store for the first row whose identity column matches the snapshot
record, assign every non-identity field of that row from the record if
it exists, otherwise add a new row built from all record fields.  That
pattern is embedded below as updateFirst / applyRecord / reconcile over
lists of identity-keyed records; the DAG-metadata pass, which in
addition coerces three timestamp fields and can raise uncaught
exceptions, is embedded separately further down.
-/

namespace AirflowBR

/-- Identity-keyed store row / snapshot record: id models the identity
column (conn_id, pool name, variable key), payload the remaining
serialized columns. -/
structure Rec (α : Type) where
  id : String
  payload : α
deriving DecidableEq

/-- Identity columns of a store, in row order. -/
def ids {α : Type} (store : List (Rec α)) : List String :=
  store.map Rec.id

/-- Update branch of the restore loops: the first row whose identity
matches the snapshot record gets every non-identity field assigned from
the record; all other rows are untouched. -/
def updateFirst {α : Type} (c : Rec α) : List (Rec α) → List (Rec α)
  | [] => []
  | e :: rest =>
      if e.id = c.id then { e with payload := c.payload } :: rest
      else e :: updateFirst c rest

/-- One iteration of a restore loop: look the identity up in the current
store; update the existing row in place if found, else add a new row. -/
def applyRecord {α : Type} (store : List (Rec α)) (c : Rec α) : List (Rec α) :=
  if store.any (fun e => e.id == c.id) then updateFirst c store
  else store ++ [c]

/-- A whole per-kind restore pass: the snapshot records are applied in
file order against the evolving store. -/
def reconcile {α : Type} (store : List (Rec α)) (snap : List (Rec α)) : List (Rec α) :=
  snap.foldl applyRecord store

/-- Lookup of the first row with the given identity (filter_by(...).first()). -/
def findById {α : Type} (store : List (Rec α)) (a : String) : Option (Rec α) :=
  store.find? (fun e => e.id == a)

theorem reconcile_nil {α : Type} (D : List (Rec α)) : reconcile D [] = D := rfl

theorem reconcile_cons {α : Type} (D : List (Rec α)) (c : Rec α) (S : List (Rec α)) :
    reconcile D (c :: S) = reconcile (applyRecord D c) S := rfl

theorem reconcile_append {α : Type} (D S₁ S₂ : List (Rec α)) :
    reconcile D (S₁ ++ S₂) = reconcile (reconcile D S₁) S₂ := by
  simp [reconcile, List.foldl_append]

theorem any_id_iff {α : Type} (store : List (Rec α)) (a : String) :
    (store.any (fun e => e.id == a)) = true ↔ a ∈ ids store := by
  simp [ids, List.any_eq_true, List.mem_map]

theorem applyRecord_of_mem {α : Type} (D : List (Rec α)) (c : Rec α)
    (h : c.id ∈ ids D) : applyRecord D c = updateFirst c D := by
  unfold applyRecord
  rw [if_pos ((any_id_iff D c.id).mpr h)]

theorem applyRecord_of_not_mem {α : Type} (D : List (Rec α)) (c : Rec α)
    (h : c.id ∉ ids D) : applyRecord D c = D ++ [c] := by
  unfold applyRecord
  rw [if_neg (fun hh => h ((any_id_iff D c.id).mp hh))]

theorem ids_updateFirst {α : Type} (c : Rec α) (E : List (Rec α)) :
    ids (updateFirst c E) = ids E := by
  induction E with
  | nil => rfl
  | cons e rest ih =>
      by_cases h : e.id = c.id
      · simp [updateFirst, h, ids]
      · simp only [updateFirst, if_neg h, ids, List.map_cons]
        simp only [ids] at ih
        rw [ih]

theorem updateFirst_updateFirst {α : Type} (c s : Rec α) (E : List (Rec α))
    (h : c.id = s.id) :
    updateFirst c (updateFirst s E) = updateFirst c E := by
  induction E with
  | nil => rfl
  | cons e rest ih =>
      by_cases he : e.id = s.id
      · have hec : e.id = c.id := he.trans h.symm
        simp [updateFirst, he, hec, h.symm]
      · have hec : ¬ e.id = c.id := fun hh => he (hh.trans h)
        simp [updateFirst, he, hec, ih]

theorem updateFirst_comm {α : Type} (c s : Rec α) (E : List (Rec α))
    (h : c.id ≠ s.id) :
    updateFirst c (updateFirst s E) = updateFirst s (updateFirst c E) := by
  induction E with
  | nil => rfl
  | cons e rest ih =>
      by_cases hes : e.id = s.id
      · have hec : ¬ e.id = c.id := fun hh => h (hh.symm.trans hes)
        simp [updateFirst, hes, hec, Ne.symm h]
      · by_cases hec : e.id = c.id
        · simp [updateFirst, hes, hec, h]
        · simp [updateFirst, hes, hec, ih]

theorem updateFirst_append_left {α : Type} (c : Rec α) (E F : List (Rec α))
    (h : c.id ∈ ids E) :
    updateFirst c (E ++ F) = updateFirst c E ++ F := by
  induction E with
  | nil => simp [ids] at h
  | cons e rest ih =>
      by_cases he : e.id = c.id
      · simp [updateFirst, he]
      · have h' : c.id ∈ ids rest := by
          simp only [ids, List.map_cons, List.mem_cons] at h
          rcases h with h | h
          · exact absurd h.symm he
          · simpa [ids] using h
        simp [updateFirst, he, ih h']

theorem updateFirst_append_of_not_mem {α : Type} (c : Rec α) (E F : List (Rec α))
    (h : c.id ∉ ids E) :
    updateFirst c (E ++ F) = E ++ updateFirst c F := by
  induction E with
  | nil => simp
  | cons e rest ih =>
      have he : ¬ e.id = c.id := by
        intro hh
        exact h (by simp [ids, hh])
      have h' : c.id ∉ ids rest := by
        intro hh
        exact h (by simp [ids] at hh ⊢; right; exact hh)
      simp [updateFirst, he, ih h']

theorem updateFirst_applyRecord {α : Type} (c : Rec α) (D : List (Rec α)) :
    updateFirst c (applyRecord D c) = applyRecord D c := by
  by_cases hc : c.id ∈ ids D
  · rw [applyRecord_of_mem _ _ hc]
    exact updateFirst_updateFirst c c D rfl
  · rw [applyRecord_of_not_mem _ _ hc, updateFirst_append_of_not_mem c D [c] hc]
    have h1 : updateFirst c [c] = [c] := by
      unfold updateFirst
      rw [if_pos rfl]
    rw [h1]

theorem mem_ids_applyRecord_self {α : Type} (D : List (Rec α)) (c : Rec α) :
    c.id ∈ ids (applyRecord D c) := by
  by_cases hc : c.id ∈ ids D
  · rw [applyRecord_of_mem _ _ hc, ids_updateFirst]
    exact hc
  · rw [applyRecord_of_not_mem _ _ hc]
    unfold ids
    rw [List.map_append]
    exact List.mem_append_right _ (by simp)

theorem mem_ids_applyRecord {α : Type} (D : List (Rec α)) (c : Rec α) (a : String)
    (h : a ∈ ids D) : a ∈ ids (applyRecord D c) := by
  by_cases hc : c.id ∈ ids D
  · rw [applyRecord_of_mem _ _ hc, ids_updateFirst]
    exact h
  · rw [applyRecord_of_not_mem _ _ hc]
    unfold ids at h ⊢
    rw [List.map_append]
    exact List.mem_append_left _ h

theorem mem_ids_reconcile {α : Type} (S : List (Rec α)) (D : List (Rec α)) (a : String)
    (h : a ∈ ids D) : a ∈ ids (reconcile D S) := by
  induction S generalizing D with
  | nil => exact h
  | cons s S' ih =>
      rw [reconcile_cons]
      exact ih _ (mem_ids_applyRecord D s a h)

theorem reconcile_updateFirst {α : Type} (S : List (Rec α)) (E : List (Rec α))
    (c : Rec α) (h : c.id ∈ ids E) :
    reconcile (updateFirst c E) S =
      if S.any (fun s => s.id == c.id) then reconcile E S
      else updateFirst c (reconcile E S) := by
  induction S generalizing E with
  | nil => simp [reconcile]
  | cons s S' ih =>
      rw [reconcile_cons, reconcile_cons]
      by_cases hsc : s.id = c.id
      · have hmem : s.id ∈ ids E := by rw [hsc]; exact h
        have hmem' : s.id ∈ ids (updateFirst c E) := by
          rw [ids_updateFirst]; exact hmem
        rw [applyRecord_of_mem _ _ hmem', applyRecord_of_mem _ _ hmem,
          updateFirst_updateFirst s c E hsc]
        have hany : ((s :: S').any (fun t => t.id == c.id)) = true := by simp [hsc]
        simp [hany]
      · have hanyc : ((s :: S').any (fun t => t.id == c.id))
            = (S'.any (fun t => t.id == c.id)) := by
          simp [List.any_cons, hsc]
        by_cases hmem : s.id ∈ ids E
        · have hmem' : s.id ∈ ids (updateFirst c E) := by
            rw [ids_updateFirst]; exact hmem
          have hcm : c.id ∈ ids (updateFirst s E) := by
            rw [ids_updateFirst]; exact h
          rw [applyRecord_of_mem _ _ hmem', applyRecord_of_mem _ _ hmem,
            updateFirst_comm s c E hsc, ih (updateFirst s E) hcm, hanyc]
        · have hnot' : s.id ∉ ids (updateFirst c E) := by
            rw [ids_updateFirst]; exact hmem
          have hca : c.id ∈ ids (E ++ [s]) := by
            unfold ids at h ⊢
            rw [List.map_append]
            exact List.mem_append_left _ h
          rw [applyRecord_of_not_mem _ _ hnot', applyRecord_of_not_mem _ _ hmem,
            ← updateFirst_append_left c E [s] h, ih (E ++ [s]) hca, hanyc]

/-- Applying the same snapshot twice to the same store yields the same
store as applying it once. -/
theorem reconcile_idem {α : Type} (S D : List (Rec α)) :
    reconcile (reconcile D S) S = reconcile D S := by
  induction S generalizing D with
  | nil => rfl
  | cons c S' ih =>
      have hA : c.id ∈ ids (applyRecord D c) := mem_ids_applyRecord_self D c
      have hE : c.id ∈ ids (reconcile (applyRecord D c) S') :=
        mem_ids_reconcile S' _ _ hA
      rw [reconcile_cons D c S', reconcile_cons (reconcile (applyRecord D c) S') c S',
        applyRecord_of_mem _ _ hE, reconcile_updateFirst S' _ c hE, ih (applyRecord D c)]
      by_cases hany : (S'.any (fun s => s.id == c.id)) = true
      · rw [if_pos hany]
      · rw [if_neg hany]
        have h2 := reconcile_updateFirst S' (applyRecord D c) c hA
        rw [if_neg hany, updateFirst_applyRecord] at h2
        exact h2.symm

theorem findById_updateFirst_self {α : Type} (c : Rec α) (E : List (Rec α))
    (h : c.id ∈ ids E) :
    findById (updateFirst c E) c.id = some ⟨c.id, c.payload⟩ := by
  induction E with
  | nil => simp [ids] at h
  | cons e rest ih =>
      by_cases he : e.id = c.id
      · simp [updateFirst, findById, he]
      · have h' : c.id ∈ ids rest := by
          simp only [ids, List.map_cons, List.mem_cons] at h
          rcases h with h | h
          · exact absurd h.symm he
          · simpa [ids] using h
        have hbe : (e.id == c.id) = false := by
          simp [he]
        simp only [updateFirst, if_neg he, findById, List.find?_cons, hbe]
        exact ih h'

theorem findById_append_self {α : Type} (D : List (Rec α)) (c : Rec α)
    (h : c.id ∉ ids D) :
    findById (D ++ [c]) c.id = some ⟨c.id, c.payload⟩ := by
  induction D with
  | nil => simp [findById]
  | cons e rest ih =>
      have he : ¬ e.id = c.id := by
        intro hh
        exact h (by simp [ids, hh])
      have h' : c.id ∉ ids rest := by
        intro hh
        exact h (by simp [ids] at hh ⊢; right; exact hh)
      have hbe : (e.id == c.id) = false := by
        simp [he]
      simp only [List.cons_append, findById, List.find?_cons, hbe]
      exact ih h'

/-- After a record is applied, looking its identity up yields exactly
the record's fields. -/
theorem findById_applyRecord_self {α : Type} (D : List (Rec α)) (c : Rec α) :
    findById (applyRecord D c) c.id = some ⟨c.id, c.payload⟩ := by
  by_cases hc : c.id ∈ ids D
  · rw [applyRecord_of_mem _ _ hc]
    exact findById_updateFirst_self c D hc
  · rw [applyRecord_of_not_mem _ _ hc]
    exact findById_append_self D c hc

theorem findById_cons {α : Type} (e : Rec α) (rest : List (Rec α)) (a : String) :
    findById (e :: rest) a =
      if e.id = a then some e else findById rest a := by
  by_cases h : e.id = a
  · rw [if_pos h]
    exact List.find?_cons_of_pos rest (by simp [h])
  · rw [if_neg h]
    exact List.find?_cons_of_neg rest (by simp [h])

theorem findById_updateFirst_other {α : Type} (s : Rec α) (E : List (Rec α))
    (a : String) (h : s.id ≠ a) :
    findById (updateFirst s E) a = findById E a := by
  induction E with
  | nil => rfl
  | cons e rest ih =>
      by_cases he : e.id = s.id
      · have hea : ¬ e.id = a := fun hh => h (he.symm.trans hh)
        simp [updateFirst, he, findById_cons, hea, h]
      · by_cases hea : e.id = a
        · have has : ¬ a = s.id := fun hh => he (hea.trans hh)
          simp [updateFirst, he, findById_cons, hea, has]
        · simp [updateFirst, he, findById_cons, hea, ih]

theorem findById_append_other {α : Type} (D : List (Rec α)) (s : Rec α)
    (a : String) (h : s.id ≠ a) :
    findById (D ++ [s]) a = findById D a := by
  induction D with
  | nil => simp [findById_cons, h]
  | cons e rest ih =>
      by_cases hea : e.id = a
      · simp [findById_cons, hea]
      · simp [findById_cons, hea, ih]

theorem findById_applyRecord_other {α : Type} (D : List (Rec α)) (s : Rec α)
    (a : String) (h : s.id ≠ a) :
    findById (applyRecord D s) a = findById D a := by
  by_cases hc : s.id ∈ ids D
  · rw [applyRecord_of_mem _ _ hc]
    exact findById_updateFirst_other s D a h
  · rw [applyRecord_of_not_mem _ _ hc]
    exact findById_append_other D s a h

/-- Snapshot records whose identity differs from a do not change what a
lookup of a returns. -/
theorem findById_reconcile_other {α : Type} (S : List (Rec α)) (D : List (Rec α))
    (a : String) (h : ∀ s ∈ S, Rec.id s ≠ a) :
    findById (reconcile D S) a = findById D a := by
  induction S generalizing D with
  | nil => rfl
  | cons s S' ih =>
      rw [reconcile_cons]
      rw [ih (applyRecord D s) (fun t ht => h t (List.mem_cons_of_mem s ht))]
      exact findById_applyRecord_other D s a (h s (List.mem_cons_self s S'))

/-- Connection profile fields other than the identity conn_id, in the
order they are serialized by airflow_backup.py (lines 24-33) and
assigned by airflow_restore.py (lines 25-31). -/
structure ConnFields where
  conn_type : Option String
  host : Option String
  login : Option String
  password : Option String
  schema : Option String
  port : Option Int
  extra : Option String
deriving DecidableEq

/-- Resource pool fields other than the identity pool name
(airflow_backup.py lines 41-45, airflow_restore.py lines 49-50). -/
structure PoolFields where
  slots : Int
  description : Option String
deriving DecidableEq

/-- Store row and snapshot record used by concrete witnesses: a stored
connection with every optional field populated, and a snapshot record
for the same conn_id carrying null for host and the other optionals. -/
def oldConn : Rec ConnFields :=
  ⟨"db1", ⟨some "postgres", some "oldhost", some "user", some "pw",
    some "db", some 5432, some "x"⟩⟩

def nullHostConn : Rec ConnFields :=
  ⟨"db1", ⟨some "postgres", none, none, none, none, none, none⟩⟩

/-- C4: for all store states D and snapshots S of the connections and
pools kinds, applying the restore pass twice yields the same store state
as applying it once: reconcile (reconcile D S) S = reconcile D S; on the
second application every record's identity already exists, so each
record takes the update-in-place branch, never a duplicate insert. -/
theorem c4_restore_idempotent :
    (∀ (D S : List (Rec ConnFields)), reconcile (reconcile D S) S = reconcile D S) ∧
    (∀ (D S : List (Rec PoolFields)), reconcile (reconcile D S) S = reconcile D S) :=
  ⟨fun D S => reconcile_idem S D, fun D S => reconcile_idem S D⟩

/-- C5: when a snapshot record's identity already exists in the store,
the restore loop takes the update branch and overwrites every serialized
field of the existing row with the snapshot's payload — a full
overwrite, so a null snapshot field replaces a non-null store field. -/
theorem c5_full_overwrite (store : List (Rec ConnFields)) (c : Rec ConnFields)
    (h : c.id ∈ ids store) :
    applyRecord store c = updateFirst c store ∧
    findById (applyRecord store c) c.id = some ⟨c.id, c.payload⟩ :=
  ⟨applyRecord_of_mem store c h, findById_applyRecord_self store c⟩

/-- C5 witness: restoring a connection whose snapshot has host = null
onto a store row with host = "oldhost" leaves the host null. -/
theorem c5_full_overwrite_witness :
    "db1" ∈ ids [oldConn] ∧
    (applyRecord [oldConn] nullHostConn = updateFirst nullHostConn [oldConn] ∧
     findById (applyRecord [oldConn] nullHostConn) "db1" =
       some ⟨"db1", ⟨some "postgres", none, none, none, none, none, none⟩⟩) :=
  ⟨by decide, c5_full_overwrite [oldConn] nullHostConn (by decide)⟩

/-- C8: a snapshot holding two records with the same identity resolves
deterministically as last occurrence wins: each occurrence is looked up
and applied against the current store state, so after the pass the store
holds the fields of the last occurrence in file order. -/
theorem c8_last_occurrence_wins {α : Type} (D S₁ S₂ : List (Rec α)) (c : Rec α)
    (h : ∀ s ∈ S₂, Rec.id s ≠ c.id) :
    findById (reconcile D (S₁ ++ c :: S₂)) c.id = some ⟨c.id, c.payload⟩ := by
  rw [reconcile_append, reconcile_cons, findById_reconcile_other S₂ _ _ h]
  exact findById_applyRecord_self _ _

/-- C8 witness: a snapshot with two records for identity "a" leaves the
second record's payload in the store. -/
theorem c8_last_occurrence_wins_witness :
    (∀ s ∈ ([] : List (Rec Int)), Rec.id s ≠ "a") ∧
    findById (reconcile ([] : List (Rec Int)) ([⟨"a", 1⟩] ++ ⟨"a", 2⟩ :: [])) "a" =
      some ⟨"a", 2⟩ :=
  ⟨by simp, c8_last_occurrence_wins [] [⟨"a", 1⟩] [] ⟨"a", 2⟩ (by simp)⟩

/-! Whole-script model of airflow_restore.py.

The script has no exception handling: any uncaught Python exception
(json.JSONDecodeError from json.load, KeyError from a missing record
field, ValueError from datetime.fromisoformat, TypeError from
fromisoformat on a non-string) aborts the rest of the script.  Each of
the connections, pools and DAG passes runs inside one create_session
unit of work, which commits on normal exit and rolls back when an
exception escapes; console prints already emitted are kept either way.
The Variables pass instead calls Variable.set once per record with no
enclosing session. -/

/-- JSON scalar values as json.load yields them for a record field. -/
inductive JVal where
  | jnull
  | jstr (s : String)
  | jbool (b : Bool)
  | jnum (n : Int)
deriving DecidableEq

/-- Store-native scalar values for a DAG-model row: the JSON scalars
plus a parsed instant (datetime). -/
inductive NVal where
  | nnull
  | nstr (s : String)
  | nbool (b : Bool)
  | nnum (n : Int)
  | ntime (t : Nat)
deriving DecidableEq

/-- A JSON scalar kept as-is when assigned to a native row field. -/
def jToN : JVal → NVal
  | .jnull => .nnull
  | .jstr s => .nstr s
  | .jbool b => .nbool b
  | .jnum n => .nnum n

/-- Python truthiness of a JSON scalar (the if dag[time_field] test). -/
def truthy : JVal → Bool
  | .jnull => false
  | .jstr s => !(s == "")
  | .jbool b => b
  | .jnum n => !(n == 0)

/-- A DAG snapshot record as json.load yields it: a mapping with unique
keys, in insertion order. -/
abbrev DagJson := List (String × JVal)

/-- A DAG-model store row after restore: the coerced record mapping. -/
abbrev DagRow := List (String × NVal)

/-- Read of dag[k] on the JSON record, none when the key is absent. -/
def jLookup (r : DagJson) (k : String) : Option JVal :=
  (r.find? (fun p => p.1 == k)).map (fun p => p.2)

/-- Read of a native row field. -/
def rowLookup (r : DagRow) (k : String) : Option NVal :=
  (r.find? (fun p => p.1 == k)).map (fun p => p.2)

/-- Assignment r[k] = v on a mapping: replace the first binding of k,
append when absent. -/
def setKey : DagRow → String → NVal → DagRow
  | [], k, v => [(k, v)]
  | (k', v') :: rest, k, v =>
      if k' = k then (k, v) :: rest else (k', v') :: setKey rest k v

/-- setattr(existing, k, v) for every item of the coerced record, in
record order (airflow_restore.py lines 72-73). -/
def setKeys (row : DagRow) (d : DagRow) : DagRow :=
  d.foldl (fun acc p => setKey acc p.1 p.2) row

/-- Record kinds, used to tag which json.load failed. -/
inductive Kind where
  | varsKind
  | connsKind
  | poolsKind
  | dagsKind
deriving DecidableEq

/-- Uncaught Python exceptions the restore script can raise. -/
inductive PyErr where
  | jsonDecodeError (k : Kind)
  | keyError (field : String)
  | valueError (s : String)
  | typeError
deriving DecidableEq

/-- Console output lines of the restore script, with the variable parts
of each print as payloads. -/
inductive Msg where
  | restoredVariables
  | variablesFileNotFound
  | updatingConnection (id : String)
  | insertingConnection (id : String)
  | connectionsRestored
  | connectionsFileNotFound
  | updatingPool (id : String)
  | insertingPool (id : String)
  | poolsRestored
  | poolsFileNotFound
  | updatingDag (id : JVal)
  | insertingDag (id : JVal)
  | dagsRestored
  | dagsFileNotFound
  | restoreComplete
deriving DecidableEq

/-- One iteration of the timestamp coercion loop (airflow_restore.py
lines 65-69): read dag[tf] — KeyError when the key is absent; a truthy
value must be a string parsed by datetime.fromisoformat — ValueError on
a malformed string, TypeError on a non-string; a falsy value is
replaced by None.  parseIso models the external datetime.fromisoformat:
some instant on a well-formed ISO-8601 string, none otherwise. -/
def coerceTime (parseIso : String → Option Nat) (dag : DagJson) (row : DagRow)
    (tf : String) : Except PyErr DagRow :=
  match jLookup dag tf with
  | none => .error (.keyError tf)
  | some v =>
      if truthy v then
        match v with
        | .jstr s =>
            match parseIso s with
            | some t => .ok (setKey row tf (.ntime t))
            | none => .error (.valueError s)
        | _ => .error .typeError
      else .ok (setKey row tf .nnull)

/-- Coercion of one DAG record: every field keeps its JSON value, then
the three timestamp fields are processed in source order. -/
def coerceDag (parseIso : String → Option Nat) (dag : DagJson) :
    Except PyErr DagRow := do
  let r0 := dag.map (fun p => (p.1, jToN p.2))
  let r1 ← coerceTime parseIso dag r0 "last_parsed_time"
  let r2 ← coerceTime parseIso dag r1 "last_pickled"
  coerceTime parseIso dag r2 "last_expired"

/-- Update of the first store row whose dag_id matches: every field of
the coerced record is assigned onto the row. -/
def updateFirstRow (idv : NVal) (d : DagRow) : List DagRow → List DagRow
  | [] => []
  | r :: rest =>
      if rowLookup r "dag_id" == some idv then setKeys r d :: rest
      else r :: updateFirstRow idv d rest

/-- One iteration of the DAG restore loop (airflow_restore.py lines
63-76): read dag[dag_id] (KeyError when absent), query the first
matching row, coerce the timestamp fields, then print and update in
place or print and insert. -/
def dagStep (parseIso : String → Option Nat) (store : List DagRow)
    (out : List Msg) (dag : DagJson) : Except PyErr (List DagRow × List Msg) :=
  match jLookup dag "dag_id" with
  | none => .error (.keyError "dag_id")
  | some did =>
      let found := store.any (fun r => rowLookup r "dag_id" == some (jToN did))
      match coerceDag parseIso dag with
      | .error e => .error e
      | .ok d =>
          if found then
            .ok (updateFirstRow (jToN did) d store, out ++ [Msg.updatingDag did])
          else
            .ok (store ++ [d], out ++ [Msg.insertingDag did])

/-- The DAG loop over the snapshot records: an uncaught exception stops
the loop, keeping the output printed so far. -/
def dagsLoop (parseIso : String → Option Nat) :
    List DagRow → List Msg → List DagJson → List DagRow × List Msg × Option PyErr
  | store, out, [] => (store, out, none)
  | store, out, dag :: rest =>
      match dagStep parseIso store out dag with
      | .ok (st, o) => dagsLoop parseIso st o rest
      | .error e => (store, out, some e)

/-- The DAG pass inside its create_session unit of work: on normal exit
the loop's store commits; when an exception escapes, the session rolls
back to the pre-pass store and the exception propagates. -/
def restoreDagsSession (parseIso : String → Option Nat) (store : List DagRow)
    (dags : List DagJson) : List DagRow × List Msg × Option PyErr :=
  match dagsLoop parseIso store [] dags with
  | (st, out, none) => (st, out, none)
  | (_, out, some e) => (store, out, some e)

/-- A snapshot file slot at restore time: absent, present but not
well-formed for its kind, or present with well-formed content. -/
inductive SnapFile (α : Type) where
  | absent
  | malformed
  | wellFormed (content : α)

/-- The four snapshot files the restore script looks for. -/
structure Files where
  variablesFile : SnapFile (List (String × String))
  connectionsFile : SnapFile (List (Rec ConnFields))
  poolsFile : SnapFile (List (Rec PoolFields))
  dagsFile : SnapFile (List DagJson)

/-- The metadata store, one table per kind. -/
structure Store where
  varTable : List (Rec String)
  connections : List (Rec ConnFields)
  pools : List (Rec PoolFields)
  dags : List DagRow
deriving DecidableEq

/-- One iteration of the connections loop with its print
(airflow_restore.py lines 21-35). -/
def connStep (acc : List (Rec ConnFields) × List Msg) (c : Rec ConnFields) :
    List (Rec ConnFields) × List Msg :=
  if acc.1.any (fun e => e.id == c.id) then
    (updateFirst c acc.1, acc.2 ++ [Msg.updatingConnection c.id])
  else
    (acc.1 ++ [c], acc.2 ++ [Msg.insertingConnection c.id])

/-- One iteration of the pools loop with its print (lines 45-53). -/
def poolStep (acc : List (Rec PoolFields) × List Msg) (p : Rec PoolFields) :
    List (Rec PoolFields) × List Msg :=
  if acc.1.any (fun e => e.id == p.id) then
    (updateFirst p acc.1, acc.2 ++ [Msg.updatingPool p.id])
  else
    (acc.1 ++ [p], acc.2 ++ [Msg.insertingPool p.id])

/-- Restore Variables (airflow_restore.py lines 6-14): Variable.set per
key/value pair, a missing file prints a warning, a malformed file makes
json.load raise. -/
def restoreVariables (file : SnapFile (List (String × String))) (st : Store) :
    Store × List Msg × Option PyErr :=
  match file with
  | .absent => (st, [Msg.variablesFileNotFound], none)
  | .malformed => (st, [], some (PyErr.jsonDecodeError Kind.varsKind))
  | .wellFormed vars =>
      ({ st with varTable := reconcile st.varTable (vars.map (fun p => ⟨p.1, p.2⟩)) },
       [Msg.restoredVariables], none)

/-- Restore Connections (lines 16-38). -/
def restoreConnections (file : SnapFile (List (Rec ConnFields))) (st : Store) :
    Store × List Msg × Option PyErr :=
  match file with
  | .absent => (st, [Msg.connectionsFileNotFound], none)
  | .malformed => (st, [], some (PyErr.jsonDecodeError Kind.connsKind))
  | .wellFormed conns =>
      let r := conns.foldl connStep (st.connections, [])
      ({ st with connections := r.1 }, r.2 ++ [Msg.connectionsRestored], none)

/-- Restore Pools (lines 40-56). -/
def restorePools (file : SnapFile (List (Rec PoolFields))) (st : Store) :
    Store × List Msg × Option PyErr :=
  match file with
  | .absent => (st, [Msg.poolsFileNotFound], none)
  | .malformed => (st, [], some (PyErr.jsonDecodeError Kind.poolsKind))
  | .wellFormed pools =>
      let r := pools.foldl poolStep (st.pools, [])
      ({ st with pools := r.1 }, r.2 ++ [Msg.poolsRestored], none)

/-- Restore DAG Metadata (lines 58-79). -/
def restoreDags (parseIso : String → Option Nat) (file : SnapFile (List DagJson))
    (st : Store) : Store × List Msg × Option PyErr :=
  match file with
  | .absent => (st, [Msg.dagsFileNotFound], none)
  | .malformed => (st, [], some (PyErr.jsonDecodeError Kind.dagsKind))
  | .wellFormed dags =>
      match restoreDagsSession parseIso st.dags dags with
      | (d, out, none) => ({ st with dags := d }, out ++ [Msg.dagsRestored], none)
      | (d, out, some e) => ({ st with dags := d }, out, some e)

/-- Sequencing of script sections: a pending uncaught exception skips
everything after it. -/
def thenRun (r : Store × List Msg × Option PyErr)
    (f : Store → Store × List Msg × Option PyErr) :
    Store × List Msg × Option PyErr :=
  match r with
  | (st, out, none) =>
      match f st with
      | (st', out', e) => (st', out ++ out', e)
  | (st, out, some e) => (st, out, some e)

/-- The whole restore script: the four kind passes in source order, then
the final completion print, an uncaught exception aborting the rest. -/
def restoreRun (parseIso : String → Option Nat) (files : Files) (st : Store) :
    Store × List Msg × Option PyErr :=
  thenRun (thenRun (thenRun (thenRun
    (restoreVariables files.variablesFile st)
    (restoreConnections files.connectionsFile))
    (restorePools files.poolsFile))
    (restoreDags parseIso files.dagsFile))
    (fun st' => (st', [Msg.restoreComplete], none))

/-! Capture side: the DAG-model projection of airflow_backup.py. -/

/-- A native DagModel row as the backup query projects it
(airflow_backup.py lines 52-59): exactly seven columns; the native
schedule value is nullable. -/
structure DagModelRow where
  dag_id : String
  is_paused : Bool
  is_active : Bool
  is_subdag : Bool
  fileloc : String
  owners : String
  schedule_interval : Option String
deriving DecidableEq

/-- Python str() applied to the native schedule value (line 68 of
airflow_backup.py): str(None) is the four-character string None, a
string is unchanged. -/
def pyStr : Option String → String
  | none => "None"
  | some s => s

/-- Backup DAG Models record construction (airflow_backup.py lines
61-69): exactly these seven keys, in this order. -/
def backupDagRecord (d : DagModelRow) : DagJson :=
  [("dag_id", .jstr d.dag_id),
   ("is_paused", .jbool d.is_paused),
   ("is_active", .jbool d.is_active),
   ("is_subdag", .jbool d.is_subdag),
   ("fileloc", .jstr d.fileloc),
   ("owners", .jstr d.owners),
   ("schedule_interval", .jstr (pyStr d.schedule_interval))]

/-- Toy stand-in for datetime.fromisoformat used by the concrete runs:
it parses exactly one well-formed ISO-8601 string. -/
def sampleIso : String → Option Nat :=
  fun s => if s = "2021-06-01T00:00:00" then some 1622505600 else none

def emptyStore : Store := ⟨[], [], [], []⟩

/-- DAG snapshot records for the concrete runs: one with a well-formed
ISO timestamp, one with a malformed timestamp, one with null
timestamps. -/
def goodDagRec : DagJson :=
  [("dag_id", .jstr "d3"), ("last_parsed_time", .jstr "2021-06-01T00:00:00"),
   ("last_pickled", .jnull), ("last_expired", .jnull)]

def badDagRec : DagJson :=
  [("dag_id", .jstr "d2"), ("last_parsed_time", .jnull),
   ("last_pickled", .jstr "not-a-date"), ("last_expired", .jnull)]

def nullDagRec : DagJson :=
  [("dag_id", .jstr "d1"), ("last_parsed_time", .jnull),
   ("last_pickled", .jnull), ("last_expired", .jnull)]

def sampleConnSnap : Rec ConnFields :=
  ⟨"db1", ⟨some "postgres", some "h", none, none, none, some 5432, none⟩⟩

/-- C1 (behavior of the code at the claim's scenario): a record's null
timestamp fields coerce to native null and a well-formed ISO string to
the parsed instant, but a malformed timestamp string raises an uncaught
ValueError that rolls back and aborts the whole DAG pass and the rest
of the run — the record after the bad one is never processed and the
store is left unchanged — rather than failing only that one record. -/
theorem c1_coercion_abort :
    coerceDag sampleIso goodDagRec = Except.ok
      [("dag_id", NVal.nstr "d3"), ("last_parsed_time", NVal.ntime 1622505600),
       ("last_pickled", NVal.nnull), ("last_expired", NVal.nnull)] ∧
    coerceDag sampleIso badDagRec = Except.error (PyErr.valueError "not-a-date") ∧
    restoreRun sampleIso
        ⟨SnapFile.absent, SnapFile.absent, SnapFile.absent,
         SnapFile.wellFormed [goodDagRec, badDagRec, nullDagRec]⟩ emptyStore =
      (emptyStore,
       [Msg.variablesFileNotFound, Msg.connectionsFileNotFound,
        Msg.poolsFileNotFound, Msg.insertingDag (JVal.jstr "d3")],
       some (PyErr.valueError "not-a-date")) ∧
    Msg.insertingDag (JVal.jstr "d1") ∉
      [Msg.variablesFileNotFound, Msg.connectionsFileNotFound,
       Msg.poolsFileNotFound, Msg.insertingDag (JVal.jstr "d3")] := by
  refine ⟨rfl, rfl, rfl, by decide⟩

/-- C2 (behavior of the code at the claim's scenario): with
pools_backup.json malformed and a well-formed dag_models_backup.json
present, the uncaught json.JSONDecodeError at the pools kind aborts the
script — the DAG kind is never attempted (no DAG output, DAG store
untouched, no final marker) — rather than each remaining kind still
being attempted. -/
theorem c2_kind_abort_not_isolated :
    restoreRun sampleIso
        ⟨SnapFile.absent, SnapFile.wellFormed [sampleConnSnap], SnapFile.malformed,
         SnapFile.wellFormed [goodDagRec]⟩ emptyStore =
      ({ emptyStore with connections := [sampleConnSnap] },
       [Msg.variablesFileNotFound, Msg.insertingConnection "db1",
        Msg.connectionsRestored],
       some (PyErr.jsonDecodeError Kind.poolsKind)) ∧
    Msg.insertingDag (JVal.jstr "d3") ∉
      [Msg.variablesFileNotFound, Msg.insertingConnection "db1",
       Msg.connectionsRestored] ∧
    Msg.restoreComplete ∉
      [Msg.variablesFileNotFound, Msg.insertingConnection "db1",
       Msg.connectionsRestored] := by
  refine ⟨rfl, by decide, by decide⟩

/-- C3: the capture projection serializes exactly seven named fields per
DAG record and none of the three timestamp fields the restore pass
unconditionally reads, so on any capture-produced DAG snapshot with at
least one record the restore DAG pass raises KeyError at its first
record and the session rolls back. -/
theorem c3_capture_restore_field_mismatch (d : DagModelRow) :
    (backupDagRecord d).map Prod.fst =
      ["dag_id", "is_paused", "is_active", "is_subdag", "fileloc", "owners",
       "schedule_interval"] ∧
    jLookup (backupDagRecord d) "last_parsed_time" = none ∧
    jLookup (backupDagRecord d) "last_pickled" = none ∧
    jLookup (backupDagRecord d) "last_expired" = none ∧
    ∀ (parseIso : String → Option Nat) (store : List DagRow) (rows : List DagModelRow),
      restoreDagsSession parseIso store ((d :: rows).map backupDagRecord) =
        (store, [], some (PyErr.keyError "last_parsed_time")) := by
  refine ⟨rfl, rfl, rfl, rfl, fun parseIso store rows => rfl⟩

/-- C6: with none of the four snapshot files present the restore run
completes without error, prints one missing-file warning per kind plus
the final completion marker, and performs no insert, update or delete
on any kind of the store. -/
theorem c6_missing_files_noop (parseIso : String → Option Nat) (st : Store) :
    restoreRun parseIso
        ⟨SnapFile.absent, SnapFile.absent, SnapFile.absent, SnapFile.absent⟩ st =
      (st, [Msg.variablesFileNotFound, Msg.connectionsFileNotFound,
            Msg.poolsFileNotFound, Msg.dagsFileNotFound, Msg.restoreComplete],
       none) := rfl

/-- C9 (behavior of the code at the claim's scenario): with
variables_backup.json present but malformed, the uncaught
json.JSONDecodeError aborts the script before any output — the final
completion marker is not printed — rather than the marker being printed
regardless of per-kind outcomes. -/
theorem c9_no_final_marker :
    restoreRun sampleIso
        ⟨SnapFile.malformed, SnapFile.absent, SnapFile.absent, SnapFile.absent⟩
        emptyStore =
      (emptyStore, [], some (PyErr.jsonDecodeError Kind.varsKind)) ∧
    Msg.restoreComplete ∉
      (restoreRun sampleIso
        ⟨SnapFile.malformed, SnapFile.absent, SnapFile.absent, SnapFile.absent⟩
        emptyStore).2.1 := by
  refine ⟨rfl, by decide⟩

/-- C10: capture stringifies the schedule expression, so the snapshot's
schedule_interval is always a JSON string — a native null schedule is
captured as the literal string None, not as JSON null — and the restore
pass writes that string back into the store verbatim, so the round trip
is not the identity on null-scheduled records. -/
theorem c10_schedule_interval_stringified (d : DagModelRow) :
    jLookup (backupDagRecord d) "schedule_interval" =
      some (JVal.jstr (pyStr d.schedule_interval)) ∧
    pyStr none = "None" ∧
    (∀ (parseIso : String → Option Nat) (sched : Option String),
      restoreDagsSession parseIso []
          [[("dag_id", JVal.jstr "d"), ("schedule_interval", JVal.jstr (pyStr sched)),
            ("last_parsed_time", JVal.jnull), ("last_pickled", JVal.jnull),
            ("last_expired", JVal.jnull)]] =
        ([[("dag_id", NVal.nstr "d"), ("schedule_interval", NVal.nstr (pyStr sched)),
           ("last_parsed_time", NVal.nnull), ("last_pickled", NVal.nnull),
           ("last_expired", NVal.nnull)]],
         [Msg.insertingDag (JVal.jstr "d")], none)) ∧
    NVal.nstr (pyStr none) ≠ NVal.nnull := by
  refine ⟨rfl, rfl, fun parseIso sched => rfl, by decide⟩

/-! Atomicity model for claim C7.

Modelled from the spec: the Store Accessor (spec section 4.3) is an
external collaborator, and StoreUnavailable (spec section 7) can strike
any store write; failAt below gives the index of the snapshot record
whose store write raises, none meaning a run without store failure.
What is taken from the code is the transaction structure: the
connections, pools and DAG passes each wrap their whole loop in one
create_session unit of work (commit on normal exit, rollback when an
exception escapes), while Restore Variables (airflow_restore.py lines
10-11) calls Variable.set once per record with no enclosing session,
each call committing on its own. -/

/-- The Variables pass with a store-failure oracle: every Variable.set
before the failing index is already committed when the failure hits. -/
def restoreVariablesFallible : Option Nat → List (Rec String) →
    List (String × String) → List (Rec String) × Bool
  | _, store, [] => (store, false)
  | some 0, store, _ :: _ => (store, true)
  | some (n + 1), store, kv :: rest =>
      restoreVariablesFallible (some n) (applyRecord store ⟨kv.1, kv.2⟩) rest
  | none, store, kv :: rest =>
      restoreVariablesFallible none (applyRecord store ⟨kv.1, kv.2⟩) rest

/-- A pass wrapped in one create_session unit of work with a
store-failure oracle: a failure at any record of the pass rolls the
whole pass back to the pre-pass store, otherwise the reconciliation
commits as a whole. -/
def sessionPassFallible {α : Type} (failAt : Option Nat)
    (store records : List (Rec α)) : List (Rec α) × Bool :=
  match failAt with
  | some n =>
      if n < records.length then (store, true) else (reconcile store records, false)
  | none => (reconcile store records, false)

/-- C7 counterexample: the Variables pass is not one atomic unit of
work — a store failure at its second record leaves the first record's
write committed, so the store is not in its pre-restore state. -/
theorem c7_variables_not_atomic_counterexample :
    (restoreVariablesFallible (some 1) [] [("a", "1"), ("b", "2")]).2 = true ∧
    (restoreVariablesFallible (some 1) [] [("a", "1"), ("b", "2")]).1 = [⟨"a", "1"⟩] ∧
    ([⟨"a", "1"⟩] : List (Rec String)) ≠ [] := by
  refine ⟨rfl, rfl, by decide⟩

/-- C7 amended: the session-wrapped kinds (connections, pools, DAG
models) are atomic — on a store failure during the pass the store is
left in its pre-restore state, otherwise the full reconciliation
commits — while the Variables pass commits record by record, so a
failure at its second record leaves the first write in the store. -/
theorem c7_amended_session_atomicity :
    (∀ (α : Type) (failAt : Option Nat) (store records : List (Rec α)),
      (sessionPassFallible failAt store records).1 =
        if (sessionPassFallible failAt store records).2 then store
        else reconcile store records) ∧
    (∀ (k1 v1 k2 v2 : String),
      restoreVariablesFallible (some 1) [] [(k1, v1), (k2, v2)] =
        ([⟨k1, v1⟩], true)) := by
  constructor
  · intro α failAt store records
    match failAt with
    | none => simp [sessionPassFallible]
    | some n =>
        by_cases h : n < records.length
        · simp [sessionPassFallible, h]
        · simp [sessionPassFallible, h]
  · intro k1 v1 k2 v2
    rfl

end AirflowBR
